import Mathlib

set_option maxRecDepth 16000

/-!
# Verification of the TLDR web-scraper specification

A shallow embedding of `src/webscraper.py` (and, where it differs,
`src/lamda_webscraper.py`) of the TLDR_Webscraper repository, together with
theorems settling the frozen claims about its specification.

Conventions of the embedding:
* Python strings are Lean `String`s; Python `len` counts code points, as does
  `String.length`.  Python's `str.strip()` is modelled by `pyStrip`
  (exact for the ASCII whitespace occurring in the sources).
* Machine-level hashing (`hashlib.md5`) is implemented directly over `Nat`
  with explicit reduction modulo `2 ^ 32`; fidelity against the RFC 1321
  test vectors is proved below (`md5_testvector_empty`, `md5_testvector_abc`).
* DOM queries performed through BeautifulSoup become field accesses on a
  `Container` record that holds, in document order, exactly the projections
  the Python code reads from a candidate article container.
* Network and clock effects are parameters (`FetchEnv`): the HTTP outcome of
  each attempt and the parsed content of a successfully fetched page are
  supplied by an environment, and the scraper's own mutable state
  (per-domain counters, consecutive-failure counter, robots cache) is passed
  explicitly.
-/

namespace TLDRScraper

/-! ## Python string primitives over character lists

Python strings are sequences of code points; these helpers implement the
string operations the sources use (`strip`, `split`, `startswith`, `lower`,
`join`, `in`) by structural recursion on the character list of a Lean
`String`, so that every definition in this file evaluates inside the
kernel. -/

/-- Python `str.strip()` (for the ASCII whitespace occurring here). -/
def pyStrip (s : String) : String :=
  String.mk (((s.data.dropWhile Char.isWhitespace).reverse.dropWhile
    Char.isWhitespace).reverse)

/-- Python `str.lower()` (ASCII). -/
def pyLower (s : String) : String := String.mk (s.data.map Char.toLower)

/-- Python `str.startswith(pre)`. -/
def pyStartsWith (s pre : String) : Bool := pre.data.isPrefixOf s.data

/-- Splitting worker: scan for the (nonempty) separator, collecting the
current part in reverse; the fuel is an upper bound on the number of steps
(`length + 1` always suffices) making the recursion structural. -/
def pySplitGo (sep : List Char) : Nat → List Char → List Char → List (List Char)
  | 0, l, acc => [acc.reverse ++ l]
  | fuel + 1, l, acc =>
    match l with
    | [] => [acc.reverse]
    | c :: rest =>
      if sep.isPrefixOf (c :: rest) then
        acc.reverse :: pySplitGo sep fuel (List.drop sep.length (c :: rest)) []
      else pySplitGo sep fuel rest (c :: acc)

/-- Python `s.split(sep)` for a nonempty separator (also the behavior of
`s.split(sep, 1)` when only the first two parts are consumed). -/
def pySplit (s sep : String) : List String :=
  if sep.data = [] then [s]
  else (pySplitGo sep.data (s.data.length + 1) s.data []).map String.mk

/-- Python `sep.join(parts)`. -/
def pyJoin (sep : String) : List String → String
  | [] => ""
  | [x] => x
  | x :: rest => x ++ sep ++ pyJoin sep rest

/-- Python's substring test `sub in s`, for a nonempty needle: `sub` occurs
in `s` iff splitting on it produces more than one part. -/
def pyIn (sub s : String) : Bool := 1 < (pySplit s sub).length

/-! ## Helpers modelling `urllib.parse`

`netloc`, `schemeNetloc` and `urljoin` model the fragments of `urllib.parse`
used by the sources (`urlparse(url).netloc`, the `f"{scheme}://{netloc}"`
domain key, and `urljoin`).  They are exact for absolute `http(s)` base URLs
and root-relative references, the cases the scraper exercises; `urljoin` on
a non-rooted relative reference resolves against the base's directory,
matching `urllib` for plain relative paths. -/

/-- `urlparse(u).netloc` for an absolute URL: the host part between `://` and
the next `/`. -/
def netloc (u : String) : String :=
  match pySplit u "://" with
  | [] => ""
  | [_] => ""
  | _ :: rest => (pySplit (pyJoin "://" rest) "/").headD ""

/-- The domain key `f"{scheme}://{netloc}"` used by the robots cache. -/
def schemeNetloc (u : String) : String :=
  match pySplit u "://" with
  | [] => ""
  | [_] => ""
  | s :: rest => s ++ "://" ++ (pySplit (pyJoin "://" rest) "/").headD ""

/-- Characters of `u` up to and including the last `/` (the base directory). -/
def keepThroughLastSlash (u : String) : String :=
  String.mk ((u.data.reverse.dropWhile (fun c => c ≠ '/')).reverse)

/-- Model of `urllib.parse.urljoin`, exact for root-relative references
(`/path`) against an absolute base; non-rooted relative references resolve
against the base's directory. -/
def urljoin (base href : String) : String :=
  if pyStartsWith href "/" then schemeNetloc base ++ href
  else keepThroughLastSlash base ++ href

/-! ## MD5 (`hashlib.md5`), over `Nat` with explicit `% 2 ^ 32` -/

/-- The 32-bit word modulus. -/
def M32 : Nat := 4294967296

/-- 32-bit modular addition. -/
def add32 (a b : Nat) : Nat := (a + b) % M32

/-- 32-bit complement (inputs are kept `< 2 ^ 32` by construction). -/
def not32 (x : Nat) : Nat := (M32 - 1) - x % M32

/-- 32-bit left rotation by `s ≤ 32` bits. -/
def rotl32 (x s : Nat) : Nat := (x % 2 ^ (32 - s)) * 2 ^ s + x / 2 ^ (32 - s)

/-- MD5 auxiliary function `F(x,y,z) = (x ∧ y) ∨ (¬x ∧ z)`. -/
def mdF (x y z : Nat) : Nat := (x.land y).lor ((not32 x).land z)

/-- MD5 auxiliary function `G(x,y,z) = (x ∧ z) ∨ (y ∧ ¬z)`. -/
def mdG (x y z : Nat) : Nat := (x.land z).lor (y.land (not32 z))

/-- MD5 auxiliary function `H(x,y,z) = x ⊕ y ⊕ z`. -/
def mdH (x y z : Nat) : Nat := (x.xor y).xor z

/-- MD5 auxiliary function `I(x,y,z) = y ⊕ (x ∨ ¬z)`. -/
def mdI (x y z : Nat) : Nat := y.xor (x.lor (not32 z))

/-- The 64 MD5 sine-derived round constants. -/
def mdK : List Nat :=
  [0xd76aa478, 0xe8c7b756, 0x242070db, 0xc1bdceee,
   0xf57c0faf, 0x4787c62a, 0xa8304613, 0xfd469501,
   0x698098d8, 0x8b44f7af, 0xffff5bb1, 0x895cd7be,
   0x6b901122, 0xfd987193, 0xa679438e, 0x49b40821,
   0xf61e2562, 0xc040b340, 0x265e5a51, 0xe9b6c7aa,
   0xd62f105d, 0x02441453, 0xd8a1e681, 0xe7d3fbc8,
   0x21e1cde6, 0xc33707d6, 0xf4d50d87, 0x455a14ed,
   0xa9e3e905, 0xfcefa3f8, 0x676f02d9, 0x8d2a4c8a,
   0xfffa3942, 0x8771f681, 0x6d9d6122, 0xfde5380c,
   0xa4beea44, 0x4bdecfa9, 0xf6bb4b60, 0xbebfbc70,
   0x289b7ec6, 0xeaa127fa, 0xd4ef3085, 0x04881d05,
   0xd9d4d039, 0xe6db99e5, 0x1fa27cf8, 0xc4ac5665,
   0xf4292244, 0x432aff97, 0xab9423a7, 0xfc93a039,
   0x655b59c3, 0x8f0ccc92, 0xffeff47d, 0x85845dd1,
   0x6fa87e4f, 0xfe2ce6e0, 0xa3014314, 0x4e0811a1,
   0xf7537e82, 0xbd3af235, 0x2ad7d2bb, 0xeb86d391]

/-- The 64 MD5 per-round left-rotation amounts. -/
def mdS : List Nat :=
  [7, 12, 17, 22, 7, 12, 17, 22, 7, 12, 17, 22, 7, 12, 17, 22,
   5, 9, 14, 20, 5, 9, 14, 20, 5, 9, 14, 20, 5, 9, 14, 20,
   4, 11, 16, 23, 4, 11, 16, 23, 4, 11, 16, 23, 4, 11, 16, 23,
   6, 10, 15, 21, 6, 10, 15, 21, 6, 10, 15, 21, 6, 10, 15, 21]

/-- One MD5 round: `m` gives the sixteen message words of the current block. -/
def mdRound (m : Nat → Nat) (st : Nat × Nat × Nat × Nat) (i : Nat) :
    Nat × Nat × Nat × Nat :=
  let (a, b, c, d) := st
  let f :=
    if i < 16 then mdF b c d
    else if i < 32 then mdG b c d
    else if i < 48 then mdH b c d
    else mdI b c d
  let g :=
    if i < 16 then i
    else if i < 32 then (5 * i + 1) % 16
    else if i < 48 then (3 * i + 5) % 16
    else (7 * i) % 16
  let tmp := add32 (add32 (add32 a f) (mdK.getD i 0)) (m g)
  (d, add32 b (rotl32 tmp (mdS.getD i 0)), b, c)

/-- Little-endian word `j` of a 64-byte block. -/
def mdBlockWord (block : List Nat) (j : Nat) : Nat :=
  block.getD (4 * j) 0 + 256 * block.getD (4 * j + 1) 0 +
    65536 * block.getD (4 * j + 2) 0 + 16777216 * block.getD (4 * j + 3) 0

/-- Process one 64-byte block, updating the running digest state. -/
def mdProcessBlock (h : Nat × Nat × Nat × Nat) (block : List Nat) :
    Nat × Nat × Nat × Nat :=
  let (a, b, c, d) := (List.range 64).foldl (mdRound (mdBlockWord block)) h
  let (h0, h1, h2, h3) := h
  (add32 h0 a, add32 h1 b, add32 h2 c, add32 h3 d)

/-- MD5 padding: `0x80`, zeros to 56 mod 64, then the bit length in 8
little-endian bytes. -/
def mdPad (msg : List Nat) : List Nat :=
  let len := msg.length
  let padLen := (56 + 64 - (len + 1) % 64) % 64
  let bitLen := (8 * len) % 2 ^ 64
  msg ++ 128 :: List.replicate padLen 0 ++
    (List.range 8).map fun i => bitLen / 2 ^ (8 * i) % 256

/-- Split a byte list into 64-byte chunks (fuel-driven so that it reduces in
the kernel; called with `fuel = l.length`, which always suffices). -/
def chunks64 : Nat → List Nat → List (List Nat)
  | 0, _ => []
  | fuel + 1, l => if l.isEmpty then [] else l.take 64 :: chunks64 fuel (l.drop 64)

/-- The four bytes of a 32-bit word, little-endian. -/
def wordLEBytes (w : Nat) : List Nat :=
  [w % 256, w / 256 % 256, w / 65536 % 256, w / 16777216 % 256]

/-- The 16-byte MD5 digest of a byte message. -/
def md5Bytes (msg : List Nat) : List Nat :=
  let padded := mdPad msg
  let (a, b, c, d) := (chunks64 padded.length padded).foldl mdProcessBlock
    (0x67452301, 0xefcdab89, 0x98badcfe, 0x10325476)
  wordLEBytes a ++ wordLEBytes b ++ wordLEBytes c ++ wordLEBytes d

/-- Lower-case hex digit. -/
def hexDigit (n : Nat) : Char :=
  if n < 10 then Char.ofNat (48 + n) else Char.ofNat (87 + n)

/-- The two hex characters of one byte. -/
def byteHexChars (b : Nat) : List Char := [hexDigit (b / 16 % 16), hexDigit (b % 16)]

/-- The 32 hex characters of `hashlib.md5(msg).hexdigest()`. -/
def md5HexChars (msg : List Nat) : List Char :=
  (md5Bytes msg).foldr (fun b acc => byteHexChars b ++ acc) []

/-- UTF-8 encoding of one character (Python `str.encode()`). -/
def charUtf8 (c : Char) : List Nat :=
  let n := c.toNat
  if n < 128 then [n]
  else if n < 2048 then [192 + n / 64, 128 + n % 64]
  else if n < 65536 then [224 + n / 4096, 128 + n / 64 % 64, 128 + n % 64]
  else [240 + n / 262144, 128 + n / 4096 % 64, 128 + n / 64 % 64, 128 + n % 64]

/-- UTF-8 bytes of a string (Python `str.encode()`). -/
def strUtf8 (s : String) : List Nat :=
  s.data.foldr (fun c acc => charUtf8 c ++ acc) []

/-- `ResponsibleScraper._generate_article_id`:
`hashlib.md5(f"{page_url}|{title}|{index}".encode()).hexdigest()[:16]`. -/
def generate_article_id (page_url title : String) (index : Nat) : String :=
  String.mk ((md5HexChars (strUtf8 (page_url ++ "|" ++ title ++ "|" ++ toString index))).take 16)

/-- Fidelity of the MD5 embedding: RFC 1321 test vector for the empty string. -/
theorem md5_testvector_empty :
    md5HexChars (strUtf8 "") = "d41d8cd98f00b204e9800998ecf8427e".data := by decide

/-- Fidelity of the MD5 embedding: RFC 1321 test vector for `"abc"`. -/
theorem md5_testvector_abc :
    md5HexChars (strUtf8 "abc") = "900150983cd24fb0d6963f7d28e17f72".data := by decide

/-! ## Article extraction (`_extract_articles` / `_parse_article_container`)

A `Container` is one candidate article container (a BeautifulSoup subtree).
Each field holds, in document order, exactly what one of the Python queries
reads from it, so the parse steps below are line-for-line translations. -/

/-- A candidate article container.
* `markup` — `str(container)`, its serialized markup;
* `headings` — `get_text()` of each `h1..h6` inside it, document order;
* `anchorHrefs` — the `href` of each `<a href=...>`, document order;
* `imgSrc`, `imgDataSrc` — `src` / `data-src` of the first `<img>` (both
  `none` when there is no image element);
* `descTexts` — `get_text()` of each `div` whose class contains
  `line-clamp` / `description` / `summary` / `excerpt` (case-insensitive);
* `paragraphTexts` — `get_text()` of each `<p>`;
* `dateSpanTexts` — `get_text()` of each `span` whose class contains `date`;
* `textNodes` — every text node as `(parent tag name, text)`;
* `text` — `container.get_text()`. -/
structure Container where
  markup : String
  headings : List String
  anchorHrefs : List String
  imgSrc : Option String
  imgDataSrc : Option String
  descTexts : List String
  paragraphTexts : List String
  dateSpanTexts : List String
  textNodes : List (String × String)
  text : String
deriving Repr, DecidableEq

/-- One extracted article record (the dict built by
`_parse_article_container`). -/
structure ArticleRecord where
  record_id : String
  title : String
  link : Option String
  description : Option String
  body : String
  image_url : Option String
  date : Option String
  category : Option String
  reading_time : Option String
  source_page : String
  extraction_index : Nat
deriving Repr, DecidableEq

/-- Title scan: the first heading whose stripped text is nonempty and longer
than 10 characters (`if title_text and len(title_text) > 10`). -/
def findTitle : List String → Option String
  | [] => none
  | h :: rest =>
    let t := pyStrip h
    if t ≠ "" ∧ 10 < t.length then some t else findTitle rest

/-- A "real" outbound href: nonempty, not a fragment, not root-relative. -/
def isRealLink (href : String) : Bool :=
  href ≠ "" && !pyStartsWith href "#" && !pyStartsWith href "/"

/-- A root-relative href: nonempty and starting with `/`. -/
def isRootRelative (href : String) : Bool :=
  href ≠ "" && pyStartsWith href "/"

/-- The link scan of `_parse_article_container`: take the first href that is
neither a fragment nor root-relative and stop; meanwhile each root-relative
href overwrites the running `article_link` with its resolution against the
page URL (the loop does not stop there). -/
def findArticleLink (page_url : String) : List String → Option String → Option String
  | [], acc => acc
  | href :: rest, acc =>
    if isRealLink href then some href
    else if isRootRelative href then
      findArticleLink page_url rest (some (urljoin page_url href))
    else findArticleLink page_url rest acc

/-- Python's `a or b` over optional strings (an empty string is falsy). -/
def pyOr (a b : Option String) : Option String :=
  match a with
  | some s => if s = "" then b else some s
  | none => b

/-- Image step: first `<img>`'s `src`, else `data-src`; resolved against the
page URL when it does not start with `http`. -/
def extractImage (imgSrc imgDataSrc : Option String) (page_url : String) :
    Option String :=
  match pyOr imgSrc imgDataSrc with
  | none => none
  | some u =>
    if u ≠ "" ∧ pyStartsWith u "http" = false then some (urljoin page_url u) else some u

/-- First entry whose stripped text is nonempty and longer than `minLen`. -/
def findLongText (minLen : Nat) : List String → Option String
  | [] => none
  | t :: rest =>
    let s := pyStrip t
    if s ≠ "" ∧ minLen < s.length then some s else findLongText minLen rest

/-- Description step: description-like `div`s first, then paragraphs, text
longer than 20 characters. -/
def extractDescription (descTexts paragraphTexts : List String) : Option String :=
  match findLongText 20 descTexts with
  | some d => some d
  | none => findLongText 20 paragraphTexts

/-- The month abbreviations recognized by the date/category step. -/
def monthAbbrevs : List String :=
  ["Jan", "Feb", "Mar", "Apr", "May", "Jun",
   "Jul", "Aug", "Sep", "Oct", "Nov", "Dec"]

/-- One iteration of the date/category loop over the `date`-classed spans:
a month abbreviation marks the whole text as the date; otherwise a `|` splits
it into date and category.  The loop never breaks, so a later span
overwrites an earlier one. -/
def dateCategoryStep (acc : Option String × Option String) (t : String) :
    Option String × Option String :=
  let text := pyStrip t
  if text = "" then acc
  else if monthAbbrevs.any (fun m => pyIn m text) then (some text, acc.2)
  else if pyIn "|" text then
    let parts := pySplit text "|"
    (some (pyStrip (parts.getD 0 "")), some (pyStrip (parts.getD 1 "")))
  else acc

/-- Case-insensitive literal match of `pat` (given lower-case) against the
front of `l`, returning the rest on success. -/
def matchCI : List Char → List Char → Option (List Char)
  | [], l => some l
  | _ :: _, [] => none
  | p :: ps, c :: cs => if c.toLower = p then matchCI ps cs else none

/-- Whitespace skip for the reading-time pattern (`\s*`). -/
def dropWs (l : List Char) : List Char := l.dropWhile Char.isWhitespace

/-- Leftmost match of the reading-time regex
`(\d+)\s*minute\s*read` (case-insensitive), returning the digit group. -/
def findReadingMinutes : List Char → Option String
  | [] => none
  | c :: rest =>
    if c.isDigit then
      let digits := (c :: rest).takeWhile Char.isDigit
      let after := (c :: rest).dropWhile Char.isDigit
      match matchCI "minute".data (dropWs after) with
      | some rest2 =>
        match matchCI "read".data (dropWs rest2) with
        | some _ => some (String.mk digits)
        | none => findReadingMinutes rest
      | none => findReadingMinutes rest
    else findReadingMinutes rest

/-- Body step: text nodes whose parent is not `script`/`style`/`button`/`a`
and whose stripped text is nonempty and longer than 5 characters. -/
def bodyTexts (nodes : List (String × String)) : List String :=
  (nodes.filter fun p =>
      p.1 ∉ ["script", "style", "button", "a"] ∧
        ((pyStrip p.2) ≠ "" ∧ 5 < (pyStrip p.2).length)).map
    fun p => pyStrip p.2

/-- `_parse_article_container`: parse one candidate container into a record,
or `none` when no heading qualifies as a title. -/
def parse_article_container (c : Container) (page_url : String) (index : Nat) :
    Option ArticleRecord :=
  match findTitle c.headings with
  | none => none
  | some title =>
    some {
      record_id := generate_article_id page_url title index
      title := title
      link := findArticleLink page_url c.anchorHrefs none
      description := extractDescription c.descTexts c.paragraphTexts
      body := pyJoin " " (bodyTexts c.textNodes)
      image_url := extractImage c.imgSrc c.imgDataSrc page_url
      date := (c.dateSpanTexts.foldl dateCategoryStep (none, none)).1
      category := (c.dateSpanTexts.foldl dateCategoryStep (none, none)).2
      reading_time := (findReadingMinutes c.text.data).map (fun d => d ++ " minute read")
      source_page := page_url
      extraction_index := index }

/-- The deduplication fingerprint `str(container)[:200]`. -/
def fingerprint (c : Container) : String := String.mk (c.markup.data.take 200)

/-- The deduplication loop of `_extract_articles`: keep a container when its
fingerprint has not been seen, preserving discovery order. -/
def dedupContainers : List Container → List String → List Container
  | [], _ => []
  | c :: rest, seen =>
    let fp := fingerprint c
    if fp ∈ seen then dedupContainers rest seen
    else c :: dedupContainers rest (fp :: seen)

/-- The deduplicated candidate list (`unique_containers`). -/
def uniqueContainers (l : List Container) : List Container := dedupContainers l []

/-- `_extract_articles` from the list of discovered candidate containers:
deduplicate, then parse each container at its position in the deduplicated
list, keeping the parses that produced a record (a failed parse is skipped,
never aborting the page). -/
def extract_articles (candidates : List Container) (page_url : String) :
    List ArticleRecord :=
  (uniqueContainers candidates).enum.filterMap
    fun p => parse_article_container p.2 page_url p.1

/-! ## Robots (`RobotsTxtChecker` over `urllib.robotparser.RobotFileParser`)

`RobotFileParser` is modelled from CPython's `urllib/robotparser.py`, the
external dependency through which both sources answer `can_fetch`.  The
percent-encoding normalizations (`quote`/`unquote`) are omitted: they are
the identity on the plain ASCII paths exercised here. -/

/-- One `Allow:`/`Disallow:` line (`RuleLine`): `allowance = true` allows. -/
structure RuleLine where
  path : String
  allowance : Bool
deriving Repr, DecidableEq

/-- `RuleLine.__init__`: an empty `Disallow:` value means allow all. -/
def mkRuleLine (path : String) (allowance : Bool) : RuleLine :=
  if path = "" ∧ allowance = false then ⟨path, true⟩ else ⟨path, allowance⟩

/-- `RuleLine.applies_to`. -/
def ruleAppliesTo (r : RuleLine) (filename : String) : Bool :=
  r.path = "*" || pyStartsWith filename r.path

/-- A robots entry: one or more user-agents and their rule lines. -/
structure RobotsEntry where
  useragents : List String
  rulelines : List RuleLine
deriving Repr, DecidableEq

/-- `Entry.applies_to`: the agent token before `/`, lower-cased; `*` is the
catch-all and otherwise substring containment decides. -/
def entryAppliesTo (e : RobotsEntry) (useragent : String) : Bool :=
  let ua := pyLower ((pySplit useragent "/").headD "")
  e.useragents.any fun agent => agent = "*" || pyIn (pyLower agent) ua

/-- `Entry.allowance`: the first applicable rule line wins; none applies
means allowed. -/
def entryAllowance (e : RobotsEntry) (filename : String) : Bool :=
  match e.rulelines.find? (fun r => ruleAppliesTo r filename) with
  | some r => r.allowance
  | none => true

/-- CPython's `RobotFileParser` state.  `last_checked = 0` means the robots
file has never been read or parsed — `can_fetch` then denies everything. -/
structure RobotFileParser where
  entries : List RobotsEntry
  default_entry : Option RobotsEntry
  disallow_all : Bool
  allow_all : Bool
  last_checked : Nat
deriving Repr, DecidableEq

/-- A freshly constructed `RobotFileParser()` (after `set_url`, before any
`read`/`parse`). -/
def RobotFileParser.init : RobotFileParser := ⟨[], none, false, false, 0⟩

/-- The path-and-after part of a URL, as rebuilt by CPython's `can_fetch`
(empty path becomes `/`). -/
def urlPath (u : String) : String :=
  match pySplit u "://" with
  | [] => u
  | [x] => x
  | _ :: rest =>
    match pySplit (pyJoin "://" rest) "/" with
    | [] => "/"
    | [_] => "/"
    | _ :: ps => "/" ++ pyJoin "/" ps

/-- `RobotFileParser.can_fetch`: denies everything while `disallow_all`, or
while the file was never read (`last_checked = 0`); the first entry applying
to the user agent decides, then the default entry, else allowed. -/
def RobotFileParser.can_fetch (rp : RobotFileParser) (useragent url : String) : Bool :=
  if rp.disallow_all then false
  else if rp.allow_all then true
  else if rp.last_checked = 0 then false
  else
    let filename := urlPath url
    match rp.entries.find? (fun e => entryAppliesTo e useragent) with
    | some e => entryAllowance e filename
    | none =>
      match rp.default_entry with
      | some e => entryAllowance e filename
      | none => true

/-- `RobotFileParser._add_entry`: a `*` entry becomes the default (first one
wins); others are appended. -/
def addEntry (rp : RobotFileParser) (e : RobotsEntry) : RobotFileParser :=
  if "*" ∈ e.useragents then
    match rp.default_entry with
    | none => { rp with default_entry := some e }
    | some _ => rp
  else { rp with entries := rp.entries ++ [e] }

/-- Python's `line.split(':', 1)` when it yields two parts. -/
def splitFirstColon (s : String) : Option (String × String) :=
  match pySplit s ":" with
  | [] => none
  | [_] => none
  | k :: rest => some (k, pyJoin ":" rest)

/-- The line loop of `RobotFileParser.parse` (state 0 = start, 1 = saw
user-agent, 2 = saw a rule); `crawl-delay`/`request-rate` advance the state
but their values are not tracked here (no claim reads them). -/
def parseLinesGo (rp : RobotFileParser) (state : Nat) (entry : RobotsEntry) :
    List String → RobotFileParser
  | [] => if state = 2 then addEntry rp entry else rp
  | line :: rest =>
    let blanked : RobotFileParser × Nat × RobotsEntry :=
      if line = "" then
        if state = 1 then (rp, 0, ⟨[], []⟩)
        else if state = 2 then (addEntry rp entry, 0, ⟨[], []⟩)
        else (rp, state, entry)
      else (rp, state, entry)
    let rp := blanked.1
    let state := blanked.2.1
    let entry := blanked.2.2
    let stripped := pyStrip ((pySplit line "#").headD "")
    if stripped = "" then parseLinesGo rp state entry rest
    else
      match splitFirstColon stripped with
      | none => parseLinesGo rp state entry rest
      | some (k, v) =>
        let key := pyLower (pyStrip k)
        let val := pyStrip v
        if key = "user-agent" then
          let stepped : RobotFileParser × RobotsEntry :=
            if state = 2 then (addEntry rp entry, ⟨[], []⟩) else (rp, entry)
          parseLinesGo stepped.1 1
            { stepped.2 with useragents := stepped.2.useragents ++ [val] } rest
        else if key = "disallow" then
          if state ≠ 0 then
            parseLinesGo rp 2
              { entry with rulelines := entry.rulelines ++ [mkRuleLine val false] } rest
          else parseLinesGo rp state entry rest
        else if key = "allow" then
          if state ≠ 0 then
            parseLinesGo rp 2
              { entry with rulelines := entry.rulelines ++ [mkRuleLine val true] } rest
          else parseLinesGo rp state entry rest
        else if key = "crawl-delay" ∨ key = "request-rate" then
          if state ≠ 0 then parseLinesGo rp 2 entry rest
          else parseLinesGo rp state entry rest
        else parseLinesGo rp state entry rest

/-- `RobotFileParser.parse(lines)`: marks the file as read
(`modified()` sets `last_checked` to the nonzero current time, modelled as 1)
and runs the line state machine. -/
def RobotFileParser.parse (rp : RobotFileParser) (lines : List String) :
    RobotFileParser :=
  parseLinesGo { rp with last_checked := 1 } 0 ⟨[], []⟩ lines

/-- Association-list lookup used for the parser cache and domain counters. -/
def lookup? {α : Type} (l : List (String × α)) (k : String) : Option α :=
  (l.find? fun p => p.1 = k).map fun p => p.2

/-- The scraper's robots cache (`self.robot_parsers`); the robots-saving
side effects of `RobotsTxtChecker` are file I/O and not modelled. -/
structure RobotsTxtChecker where
  robot_parsers : List (String × RobotFileParser)
deriving Repr, DecidableEq

/-- `RobotsTxtChecker.can_fetch`.  `fetchRobots` is the HTTP outcome of
`requests.get(robots_url)`: `some lines` on status 200 (the successful
`read()`/`parse` consumes those lines), `none` on any non-200 status,
network error or timeout (the `except` branch, which caches a fresh
never-parsed `RobotFileParser`).  Returns the verdict and the updated
cache. -/
def RobotsTxtChecker.can_fetch (fetchRobots : String → Option (List String))
    (self : RobotsTxtChecker) (url user_agent : String) :
    Bool × RobotsTxtChecker :=
  let domain := schemeNetloc url
  match lookup? self.robot_parsers domain with
  | some rp => (rp.can_fetch user_agent url, self)
  | none =>
    let robots_url := urljoin domain "/robots.txt"
    let rp :=
      match fetchRobots robots_url with
      | some lines => RobotFileParser.init.parse lines
      | none => RobotFileParser.init
    (rp.can_fetch user_agent url, ⟨self.robot_parsers ++ [(domain, rp)]⟩)

/-! ## `ResponsibleScraper`: per-URL state machine and date-range driver

Network, page content and randomness are parameters (`FetchEnv`); the
scraper's mutable per-run state is `ScraperState`.  The polite inter-request
delay (`_get_delay` + `time.sleep`) only consumes wall-clock time and is not
tracked; the exponential-backoff sleeps between retry attempts are recorded
because a claim is about them. -/

/-- `ScrapingConfig` (delay bounds are irrelevant to the claims and kept as
plain numbers). -/
structure ScrapingConfig where
  user_agent : String := "TLDR-Scraper/1.0 (Research; datubyte@datubyte.com)"
  delay_min : Nat := 1
  delay_max : Nat := 3
  max_retries : Nat := 3
  timeout : Nat := 10
  respect_robots_txt : Bool := true
  max_pages_per_domain : Nat := 100
  debug_mode : Bool := false
  save_robots_txt : Bool := true
  skip_weekends : Bool := false
  skip_missing_dates : Bool := true
  max_consecutive_failures : Nat := 5
deriving Repr, DecidableEq

/-- The scraper's mutable per-run state: `self.domain_counters` and
`self.consecutive_failures`. -/
structure ScraperState where
  domain_counters : List (String × Nat)
  consecutive_failures : Nat
deriving Repr, DecidableEq

/-- The environment of one run: the robots verdict per URL (the outcome of
`RobotsTxtChecker.can_fetch`, abstracted here; modelled in detail above),
whether HTTP attempt `k` on a URL succeeds (`raise_for_status` passes), and
the content of a successfully fetched page (its candidate article
containers and the page-level extractions). -/
structure FetchEnv where
  robotsAllowed : String → Bool
  attemptSucceeds : String → Nat → Bool
  pageContainers : String → List Container
  pageTitle : String → String
  pageContent : String → String
  pageMeta : String → String
  pageStatus : String → Nat

/-- The page-level result dict assembled on a successful fetch.  The
`content_type`/`scraped_at`/debug keys are wall-clock or transport metadata
with no claim about them and are omitted. -/
structure PageData where
  url : String
  title : String
  content : String
  meta_description : String
  articles : List ArticleRecord
  article_count : Nat
  status_code : Nat
deriving Repr, DecidableEq

/-- `_should_scrape_url`: domain-quota gate (only when the domain already
has a counter) followed by the robots gate (only when
`respect_robots_txt`). -/
def should_scrape_url (cfg : ScrapingConfig) (robotsAllowed : String → Bool)
    (st : ScraperState) (url : String) : Bool :=
  let domain := netloc url
  let quotaReached : Bool :=
    match lookup? st.domain_counters domain with
    | some n => decide (cfg.max_pages_per_domain ≤ n)
    | none => false
  if quotaReached then false
  else if cfg.respect_robots_txt ∧ ¬ robotsAllowed url then false
  else true

/-- The retry loop of `scrape_url` (`for attempt in range(max_retries)`),
starting at attempt index `k` with `remaining` attempts left: returns the
index of the first successful attempt (or `none` when all fail) and the
list of exponential-backoff sleeps `2 ** attempt` performed between
consecutive attempts (none before the first, none after the last). -/
def retryLoop (succeeds : Nat → Bool) : Nat → Nat → Option Nat × List Nat
  | 0, _ => (none, [])
  | remaining + 1, k =>
    if succeeds k then (some k, [])
    else if remaining = 0 then (none, [])
    else
      let r := retryLoop succeeds remaining (k + 1)
      (r.1, 2 ^ k :: r.2)

/-- `self.domain_counters[domain] = self.domain_counters.get(domain, 0) + 1`. -/
def bumpCounter : List (String × Nat) → String → List (String × Nat)
  | [], d => [(d, 1)]
  | (k, n) :: rest, d =>
    if k = d then (k, n + 1) :: rest else (k, n) :: bumpCounter rest d

/-- The outcome of one `scrape_url` call: the returned data (or `None`), the
scraper state afterwards, the number of HTTP GET attempts issued for the
page, and the backoff sleeps performed between attempts. -/
structure ScrapeOutcome where
  data : Option PageData
  state : ScraperState
  attempts : Nat
  backoffs : List Nat
deriving Repr, DecidableEq

/-- `ResponsibleScraper.scrape_url`: policy gate, then the retry loop; on
HTTP success the domain counter is bumped, the consecutive-failure counter
reset, and the page parsed; exhausting all attempts returns `None` and
increments the consecutive-failure counter. -/
def scrape_url (cfg : ScrapingConfig) (env : FetchEnv) (st : ScraperState)
    (url : String) : ScrapeOutcome :=
  if ¬ should_scrape_url cfg env.robotsAllowed st url then
    ⟨none, st, 0, []⟩
  else
    let r := retryLoop (env.attemptSucceeds url) cfg.max_retries 0
    match r.1 with
    | some k =>
      let articles := extract_articles (env.pageContainers url) url
      { data := some {
          url := url
          title := env.pageTitle url
          content := env.pageContent url
          meta_description := env.pageMeta url
          articles := articles
          article_count := articles.length
          status_code := env.pageStatus url }
        state := ⟨bumpCounter st.domain_counters (netloc url), 0⟩
        attempts := k + 1
        backoffs := r.2 }
    | none =>
      { data := none
        state := { st with consecutive_failures := st.consecutive_failures + 1 }
        attempts := cfg.max_retries
        backoffs := r.2 }

/-- `DateRangeGenerator.generate_date_range`, with dates as day numbers
(day 0 a Monday, so `d % 7 ≥ 5` is a weekend, matching
`datetime.weekday() >= 5`); the while-loop with its weekend `continue` is
the ascending run filtered. -/
def generate_date_range (start endDay : Nat) (skip_weekends : Bool) : List Nat :=
  (List.range' start (endDay + 1 - start)).filter
    fun d => !(skip_weekends && decide (5 ≤ d % 7))

/-- The loop body of `ResponsibleScraper.scrape_date_range` over the
remaining dates: break before scraping once the consecutive-failure counter
has reached the threshold; append the data of a successful date to the
results; a failed date is only logged.  Returns the results (date paired
with its page data), the final state, and the number of dates for which
`scrape_url` was invoked.  `urlFor` abstracts
`format_url_with_date(url_template, date)`. -/
def scrapeDateRangeGo (cfg : ScrapingConfig) (env : FetchEnv)
    (urlFor : Nat → String) :
    List Nat → ScraperState → List (Nat × PageData) × ScraperState × Nat
  | [], st => ([], st, 0)
  | d :: rest, st =>
    if cfg.max_consecutive_failures ≤ st.consecutive_failures then ([], st, 0)
    else
      let out := scrape_url cfg env st (urlFor d)
      let r := scrapeDateRangeGo cfg env urlFor rest out.state
      match out.data with
      | some data => ((d, data) :: r.1, r.2.1, r.2.2 + 1)
      | none => (r.1, r.2.1, r.2.2 + 1)

/-- `ResponsibleScraper.scrape_date_range`: drive `scrape_url` over the
generated ascending date sequence. -/
def scrape_date_range (cfg : ScrapingConfig) (env : FetchEnv)
    (urlFor : Nat → String) (st : ScraperState) (start endDay : Nat) :
    List (Nat × PageData) × ScraperState × Nat :=
  scrapeDateRangeGo cfg env urlFor
    (generate_date_range start endDay cfg.skip_weekends) st

/-! ## Helper lemmas about the retry loop -/

theorem retryLoop_all_fail (succeeds : Nat → Bool) :
    ∀ m k, (∀ j, j ≤ m → succeeds (k + j) = false) →
      retryLoop succeeds (m + 1) k = (none, (List.range m).map fun i => 2 ^ (k + i)) := by
  intro m
  induction m with
  | zero =>
    intro k h
    have h0 : succeeds k = false := by simpa using h 0 (Nat.le_refl 0)
    simp [retryLoop, h0]
  | succ m ih =>
    intro k h
    have h0 : succeeds k = false := by simpa using h 0 (Nat.zero_le _)
    have hrec := ih (k + 1) (fun j hj => by
      have := h (j + 1) (Nat.succ_le_succ hj)
      simpa [Nat.add_assoc, Nat.add_comm 1 j] using this)
    rw [retryLoop, h0]
    simp only [Bool.false_eq_true, if_false, Nat.succ_ne_zero, hrec]
    rw [List.range_succ_eq_map]
    simp [List.map_map, Function.comp_def, Nat.add_assoc, Nat.add_comm 1]

theorem retryLoop_first_success (succeeds : Nat → Bool) :
    ∀ j n k, j < n → succeeds (k + j) = true →
      (∀ i, i < j → succeeds (k + i) = false) →
      retryLoop succeeds n k = (some (k + j), (List.range j).map fun i => 2 ^ (k + i)) := by
  intro j
  induction j with
  | zero =>
    intro n k hn hs _
    obtain ⟨m, rfl⟩ : ∃ m, n = m + 1 := ⟨n - 1, (Nat.succ_pred_eq_of_pos hn).symm⟩
    have h0 : succeeds k = true := by simpa using hs
    simp [retryLoop, h0]
  | succ j ih =>
    intro n k hn hs hf
    obtain ⟨m, rfl⟩ : ∃ m, n = m + 1 :=
      ⟨n - 1, (Nat.succ_pred_eq_of_pos (Nat.lt_of_le_of_lt (Nat.zero_le _) hn)).symm⟩
    have h0 : succeeds k = false := by simpa using hf 0 (Nat.succ_pos j)
    have hm : m ≠ 0 := by omega
    have hrec := ih m (k + 1) (by omega)
      (by simpa [Nat.add_assoc, Nat.add_comm 1 j] using hs)
      (fun i hi => by
        have := hf (i + 1) (Nat.succ_lt_succ hi)
        simpa [Nat.add_assoc, Nat.add_comm 1 i] using this)
    rw [retryLoop, h0]
    simp only [Bool.false_eq_true, if_false, hm, hrec]
    rw [List.range_succ_eq_map]
    simp [List.map_map, Function.comp_def, Nat.add_assoc, Nat.add_comm 1]

theorem retryLoop_some (succeeds : Nat → Bool) :
    ∀ n k m, (retryLoop succeeds n k).1 = some m →
      succeeds m = true ∧ k ≤ m ∧ m < k + n := by
  intro n
  induction n with
  | zero => intro k m h; simp [retryLoop] at h
  | succ n ih =>
    intro k m h
    rw [retryLoop] at h
    by_cases h0 : succeeds k = true
    · simp [h0] at h
      subst h
      exact ⟨h0, Nat.le_refl _, by omega⟩
    · simp [h0] at h
      by_cases hn : n = 0
      · simp [hn] at h
      · simp [hn] at h
        obtain ⟨hg, hk, hb⟩ := ih (k + 1) m h
        exact ⟨hg, by omega, by omega⟩

/-! ## Shared concrete fixtures for witnesses and counterexamples -/

/-- An environment where robots allow everything and every HTTP attempt
fails (e.g. persistent timeouts). -/
def envAllFail : FetchEnv :=
  ⟨fun _ => true, fun _ _ => false, fun _ => [], fun _ => "", fun _ => "",
   fun _ => "", fun _ => 0⟩

/-- An environment where robots allow everything, every HTTP attempt
succeeds, and every page is empty. -/
def envAllOk : FetchEnv :=
  ⟨fun _ => true, fun _ _ => true, fun _ => [], fun _ => "", fun _ => "",
   fun _ => "", fun _ => 200⟩

/-- A fresh per-run state. -/
def st0 : ScraperState := ⟨[], 0⟩

/-! ## C4 — retry/backoff accounting -/

/-- C4 counterexample: the claim enumerates the backoff sleeps as
"0, 1, 2, 4 seconds following attempts 0, 1, 2, 3", but with five attempts
all failing the code sleeps `2 ** attempt` = 1, 2, 4, 8 seconds (the first
backoff is `2 ** 0 = 1`, never 0). -/
theorem backoff_seconds_cex :
    (scrape_url { max_retries := 5 } envAllFail st0
        "https://tldr.tech/tech/2025-01-10").backoffs = [1, 2, 4, 8] ∧
      ([1, 2, 4, 8] : List Nat) ≠ [0, 1, 2, 4] := by
  constructor
  · decide
  · decide

/-- C4 (amended): on transient fetch failure `scrape_url` makes at most
`max_retries` attempts; between consecutive attempts (never before the
first, never after the last) it backs off `2 ^ attemptIndex` seconds, i.e.
1, 2, 4, 8 seconds following attempts 0, 1, 2, 3; exhausting all attempts
returns `None`, leaves the domain counters unchanged, and increments the
consecutive-failure counter by one; a successful attempt resets that
counter to zero. -/
theorem retry_backoff_and_failure_accounting (cfg : ScrapingConfig)
    (env : FetchEnv) (st : ScraperState) (url : String)
    (hallow : should_scrape_url cfg env.robotsAllowed st url = true) :
    (scrape_url cfg env st url).attempts ≤ cfg.max_retries ∧
    ((∀ j, j < cfg.max_retries → env.attemptSucceeds url j = false) →
      scrape_url cfg env st url =
        ⟨none, ⟨st.domain_counters, st.consecutive_failures + 1⟩,
          cfg.max_retries, (List.range (cfg.max_retries - 1)).map fun i => 2 ^ i⟩) ∧
    (∀ j, j < cfg.max_retries → env.attemptSucceeds url j = true →
      (∀ i, i < j → env.attemptSucceeds url i = false) →
      (scrape_url cfg env st url).attempts = j + 1 ∧
      (scrape_url cfg env st url).state.consecutive_failures = 0 ∧
      (scrape_url cfg env st url).backoffs = (List.range j).map (fun i => 2 ^ i) ∧
      (scrape_url cfg env st url).data ≠ none) := by
  refine ⟨?_, ?_, ?_⟩
  · rw [scrape_url]
    simp only [hallow, not_true, if_false]
    rcases hr : (retryLoop (env.attemptSucceeds url) cfg.max_retries 0).1 with - | k
    · simp
    · have := retryLoop_some (env.attemptSucceeds url) cfg.max_retries 0 k hr
      simp only [hr]
      omega
  · intro hfail
    rw [scrape_url]
    simp only [hallow, not_true, if_false]
    rcases hmr : cfg.max_retries with - | m
    · simp [retryLoop, hmr]
    · have := retryLoop_all_fail (env.attemptSucceeds url) m 0
        (fun j hj => by simpa using hfail j (by omega))
      rw [this]
      simp
  · intro j hj hs hf
    rw [scrape_url]
    simp only [hallow, not_true, if_false]
    have := retryLoop_first_success (env.attemptSucceeds url) j cfg.max_retries 0
      hj (by simpa using hs) (fun i hi => by simpa using hf i hi)
    rw [this]
    simp

/-- C4 witness: the amended theorem at a concrete all-failing run with four
attempts — backoffs 1, 2, 4 seconds, `None` result, failure counter 0 → 1. -/
theorem retry_backoff_and_failure_accounting_witness :
    scrape_url { max_retries := 4 } envAllFail st0 "https://tldr.tech/tech/2025-01-10" =
      ⟨none, ⟨[], 1⟩, 4, [1, 2, 4]⟩ := by
  have h := (retry_backoff_and_failure_accounting { max_retries := 4 } envAllFail st0
    "https://tldr.tech/tech/2025-01-10" (by decide)).2.1 (fun j _ => rfl)
  rw [h]
  rfl

/-! ## C8 — policy-blocked URLs are pure skips -/

/-- C8: a URL blocked by policy — the per-domain page quota being reached,
or robots disallowing it — makes `scrape_url` return no result with zero
HTTP attempts, no backoff sleeps, and the scraper state (domain counters
and consecutive-failure counter) exactly unchanged. -/
theorem policy_blocked_is_pure_skip (cfg : ScrapingConfig) (env : FetchEnv)
    (st : ScraperState) (url : String)
    (h : (∃ n, lookup? st.domain_counters (netloc url) = some n ∧
            cfg.max_pages_per_domain ≤ n) ∨
         (cfg.respect_robots_txt = true ∧ env.robotsAllowed url = false)) :
    scrape_url cfg env st url = ⟨none, st, 0, []⟩ := by
  have hgate : should_scrape_url cfg env.robotsAllowed st url = false := by
    rw [should_scrape_url]
    rcases h with ⟨n, hl, hn⟩ | ⟨hr, hb⟩
    · simp [hl, hn]
    · rcases hq : (match lookup? st.domain_counters (netloc url) with
        | some n => decide (cfg.max_pages_per_domain ≤ n)
        | none => false : Bool) with - | -
      · simp [hq, hr, hb]
      · simp [hq]
  rw [scrape_url, hgate]
  simp

/-- C8 witness: a robots-blocked URL on a fresh state is skipped
untouched. -/
theorem policy_blocked_is_pure_skip_witness :
    scrape_url {} ⟨fun _ => false, fun _ _ => true, fun _ => [], fun _ => "",
        fun _ => "", fun _ => "", fun _ => 200⟩ st0 "https://tldr.tech/tech/2025-01-10" =
      ⟨none, st0, 0, []⟩ :=
  policy_blocked_is_pure_skip _ _ _ _ (Or.inr ⟨rfl, rfl⟩)

/-! ## C9 — `article_count` invariant -/

/-- C9: every page result returned by a successful scrape satisfies
`article_count = length articles`, including the zero-article case. -/
theorem article_count_invariant (cfg : ScrapingConfig) (env : FetchEnv)
    (st : ScraperState) (url : String) (d : PageData)
    (h : (scrape_url cfg env st url).data = some d) :
    d.article_count = d.articles.length := by
  rw [scrape_url] at h
  by_cases hgate : should_scrape_url cfg env.robotsAllowed st url = true
  · simp only [hgate, not_true, if_false] at h
    rcases hr : (retryLoop (env.attemptSucceeds url) cfg.max_retries 0).1 with - | k
    · rw [hr] at h; simp at h
    · rw [hr] at h
      simp only [Option.some.injEq] at h
      rw [← h]
  · simp only [Bool.not_eq_true] at hgate
    simp [hgate] at h

/-- C9 witness: a successful scrape of a page with zero qualifying
containers yields `article_count = 0 = length []`. -/
theorem article_count_invariant_witness :
    (⟨"https://tldr.tech/tech/2025-01-10", "", "", "", [], 0, 200⟩ :
        PageData).article_count =
      (⟨"https://tldr.tech/tech/2025-01-10", "", "", "", [], 0, 200⟩ :
        PageData).articles.length :=
  article_count_invariant {} envAllOk st0 "https://tldr.tech/tech/2025-01-10"
    _ (by decide)

/-! ## C1 — failed robots retrieval -/

theorem lookup?_append_right {α : Type} (l : List (String × α)) (k : String)
    (v : α) (h : lookup? l k = none) : lookup? (l ++ [(k, v)]) k = some v := by
  induction l with
  | nil => simp [lookup?]
  | cons a l ih =>
    by_cases hak : a.1 = k
    · rw [lookup?, List.find?_cons_of_pos _ (by simp [hak])] at h
      simp at h
    · rw [lookup?, List.find?_cons_of_neg _ (by simp [hak])] at h
      rw [List.cons_append, lookup?, List.find?_cons_of_neg _ (by simp [hak])]
      exact ih h

/-- C1 (what the code actually does — the claim asserts the opposite): when
a domain's robots.txt could not be retrieved (non-200 such as 503, network
error, timeout), the checker caches a fresh never-parsed `RobotFileParser`,
and CPython's `can_fetch` denies everything while `last_checked = 0` — so
the first query returns `False`, and every later query for any URL of that
domain also returns `False` for the remainder of the run. -/
theorem robots_fetch_failure_blocks_domain
    (fetch : String → Option (List String)) (self : RobotsTxtChecker)
    (url ua : String)
    (hmiss : lookup? self.robot_parsers (schemeNetloc url) = none)
    (hfail : fetch (urljoin (schemeNetloc url) "/robots.txt") = none) :
    (RobotsTxtChecker.can_fetch fetch self url ua).1 = false ∧
    ∀ (fetch2 : String → Option (List String)) (url2 ua2 : String),
      schemeNetloc url2 = schemeNetloc url →
      (RobotsTxtChecker.can_fetch fetch2
          (RobotsTxtChecker.can_fetch fetch self url ua).2 url2 ua2).1 = false := by
  have hstep : RobotsTxtChecker.can_fetch fetch self url ua =
      (RobotFileParser.init.can_fetch ua url,
        ⟨self.robot_parsers ++ [(schemeNetloc url, RobotFileParser.init)]⟩) := by
    rw [RobotsTxtChecker.can_fetch, hmiss]
    simp only [hfail]
  constructor
  · rw [hstep]
    rfl
  · intro fetch2 url2 ua2 hdom
    rw [hstep]
    rw [RobotsTxtChecker.can_fetch]
    simp only [hdom,
      lookup?_append_right self.robot_parsers (schemeNetloc url)
        RobotFileParser.init hmiss]
    rfl

/-- C1 witness: a domain whose robots.txt GET yields 503 (modelled by the
fetch returning `none`): the first and all subsequent checks for that
domain return `False`. -/
theorem robots_fetch_failure_blocks_domain_witness :
    (RobotsTxtChecker.can_fetch (fun _ => none) ⟨[]⟩ "https://example.com/page"
        "TLDR-Scraper/1.0 (Research; datubyte@datubyte.com)").1 = false ∧
    (RobotsTxtChecker.can_fetch (fun _ => none)
        (RobotsTxtChecker.can_fetch (fun _ => none) ⟨[]⟩ "https://example.com/page"
          "TLDR-Scraper/1.0 (Research; datubyte@datubyte.com)").2
        "https://example.com/other/path"
        "TLDR-Scraper/1.0 (Research; datubyte@datubyte.com)").1 = false := by
  have h := robots_fetch_failure_blocks_domain (fun _ => none) ⟨[]⟩
    "https://example.com/page" "TLDR-Scraper/1.0 (Research; datubyte@datubyte.com)"
    rfl rfl
  exact ⟨h.1, h.2 (fun _ => none) "https://example.com/other/path"
    "TLDR-Scraper/1.0 (Research; datubyte@datubyte.com)" rfl⟩

/-! ## C2 — link extraction -/

/-- `_parse_article_container` as an `Option.map` over the title scan: the
whole parse is determined by the first qualifying heading. -/
theorem parse_article_container_eq (c : Container) (page_url : String)
    (index : Nat) :
    parse_article_container c page_url index =
      (findTitle c.headings).map fun title =>
        { record_id := generate_article_id page_url title index
          title := title
          link := findArticleLink page_url c.anchorHrefs none
          description := extractDescription c.descTexts c.paragraphTexts
          body := pyJoin " " (bodyTexts c.textNodes)
          image_url := extractImage c.imgSrc c.imgDataSrc page_url
          date := (c.dateSpanTexts.foldl dateCategoryStep (none, none)).1
          category := (c.dateSpanTexts.foldl dateCategoryStep (none, none)).2
          reading_time := (findReadingMinutes c.text.data).map
            (fun d => d ++ " minute read")
          source_page := page_url
          extraction_index := index } := by
  rw [parse_article_container]
  rcases findTitle c.headings with - | t <;> rfl

theorem findArticleLink_no_real (url : String) :
    ∀ (hrefs : List String) (acc : Option String),
      (∀ x ∈ hrefs, isRealLink x = false) →
      findArticleLink url hrefs acc =
        (((hrefs.filter isRootRelative).getLast?).map (urljoin url)).or acc := by
  intro hrefs
  induction hrefs with
  | nil => intro acc _; simp [findArticleLink]
  | cons h rest ih =>
    intro acc hno
    have hreal : isRealLink h = false := hno h (List.mem_cons_self h rest)
    rw [findArticleLink, hreal]
    simp only [Bool.false_eq_true, if_false]
    rcases hroot : isRootRelative h with - | -
    · rw [if_neg (by simp [hroot])]
      rw [ih acc (fun x hx => hno x (List.mem_cons_of_mem h hx))]
      rw [List.filter_cons_of_neg (by simp [hroot])]
    · rw [if_pos (by simp [hroot])]
      rw [ih (some (urljoin url h)) (fun x hx => hno x (List.mem_cons_of_mem h hx))]
      rw [List.filter_cons_of_pos (by simp [hroot]), List.getLast?_cons]
      rcases hl : (rest.filter isRootRelative).getLast? with - | h'
      · simp [hl]
      · simp [hl]

theorem findArticleLink_first_real (url : String) :
    ∀ (pre : List String) (h : String) (post : List String) (acc : Option String),
      isRealLink h = true → (∀ x ∈ pre, isRealLink x = false) →
      findArticleLink url (pre ++ h :: post) acc = some h := by
  intro pre
  induction pre with
  | nil =>
    intro h post acc hreal _
    rw [List.nil_append, findArticleLink, hreal]
    rfl
  | cons a pre ih =>
    intro h post acc hreal hno
    have ha : isRealLink a = false := hno a (List.mem_cons_self a pre)
    rw [List.cons_append, findArticleLink, ha]
    simp only [Bool.false_eq_true, if_false]
    rcases hroot : isRootRelative a with - | -
    · rw [if_neg (by simp [hroot])]
      exact ih h post acc hreal (fun x hx => hno x (List.mem_cons_of_mem a hx))
    · rw [if_pos (by simp [hroot])]
      exact ih h post _ hreal (fun x hx => hno x (List.mem_cons_of_mem a hx))

/-- A container whose only hrefs are the two root-relative links `/a` and
`/b`, in that order. -/
def containerTwoRootLinks : Container :=
  ⟨"divmarkup", ["A sufficiently long title"], ["/a", "/b"],
   none, none, [], [], [], [], ""⟩

/-- C2 counterexample: with only root-relative hrefs `/a` then `/b`, the
claim says the first (`/a`) is resolved and returned, but the loop never
breaks on root-relative hrefs and each one overwrites the previous, so the
parse returns the resolution of the last (`/b`). -/
theorem link_last_root_relative_cex :
    (parse_article_container containerTwoRootLinks "https://x.test/page" 0).map
        ArticleRecord.link = some (some "https://x.test/b") ∧
    urljoin "https://x.test/page" "/a" = "https://x.test/a" ∧
    some (some "https://x.test/b") ≠ some (some "https://x.test/a") := by
  refine ⟨by decide, by decide, by decide⟩

/-- C2 (amended): the link scan returns the first href that is neither a
fragment nor root-relative, verbatim; if no such href exists, it returns
the **last** (not first) root-relative href resolved against the page URL,
and `none` when there is no root-relative href either. -/
theorem link_selection (c : Container) (url : String) (i : Nat)
    (r : ArticleRecord) (hp : parse_article_container c url i = some r) :
    (∀ pre h post, c.anchorHrefs = pre ++ h :: post → isRealLink h = true →
        (∀ x ∈ pre, isRealLink x = false) → r.link = some h) ∧
    ((∀ x ∈ c.anchorHrefs, isRealLink x = false) →
      r.link = ((c.anchorHrefs.filter isRootRelative).getLast?).map (urljoin url)) := by
  rw [parse_article_container_eq] at hp
  rcases ht : findTitle c.headings with - | t
  · rw [ht] at hp; simp at hp
  · rw [ht] at hp
    simp only [Option.map_some', Option.some.injEq] at hp
    have hlink : r.link = findArticleLink url c.anchorHrefs none := by
      rw [← hp]
    constructor
    · intro pre h post hsplit hreal hno
      rw [hlink, hsplit]
      exact findArticleLink_first_real url pre h post none hreal hno
    · intro hno
      rw [hlink, findArticleLink_no_real url c.anchorHrefs none hno]
      simp

/-- A container whose hrefs are a fragment, a root-relative link, and then a
"real" outbound link. -/
def containerMixedLinks : Container :=
  ⟨"m", ["A sufficiently long title"], ["#x", "/a", "other.html"],
   none, none, [], [], [], [], ""⟩

/-- The record `containerMixedLinks` parses to. -/
def recordMixedLinks : ArticleRecord :=
  ⟨"ce1c29beb5bea0a5", "A sufficiently long title", some "other.html", none,
   "", none, none, none, none, "https://x.test/page", 0⟩

/-- The record `containerTwoRootLinks` parses to. -/
def recordTwoRootLinks : ArticleRecord :=
  ⟨"ce1c29beb5bea0a5", "A sufficiently long title", some "https://x.test/b",
   none, "", none, none, none, none, "https://x.test/page", 0⟩

/-- C2 witness: the amended selection at concrete containers — a real
outbound href wins verbatim over earlier fragment/root-relative hrefs, and
with only root-relative hrefs the last one is resolved. -/
theorem link_selection_witness :
    recordMixedLinks.link = some "other.html" ∧
    recordTwoRootLinks.link = some "https://x.test/b" := by
  have h1 := (link_selection containerMixedLinks "https://x.test/page" 0
    recordMixedLinks (by decide)).1 ["#x", "/a"] "other.html" [] rfl
    (by decide) (by decide)
  have h2 := (link_selection containerTwoRootLinks "https://x.test/page" 0
    recordTwoRootLinks (by decide)).2 (by decide)
  exact ⟨h1, by rw [h2]; decide⟩

/-! ## Helper lemmas about the title scan and `extract_articles` -/

/-- The title-qualification test (`if title_text and len(title_text) > 10`). -/
def qualifiesTitle (h : String) : Prop := pyStrip h ≠ "" ∧ 10 < (pyStrip h).length

instance (h : String) : Decidable (qualifiesTitle h) := by
  unfold qualifiesTitle; infer_instance

theorem findTitle_none_iff (hs : List String) :
    findTitle hs = none ↔ ∀ h ∈ hs, ¬ qualifiesTitle h := by
  induction hs with
  | nil => simp [findTitle]
  | cons h rest ih =>
    rw [findTitle]
    by_cases hq : qualifiesTitle h
    · rw [if_pos (by exact hq)]
      simp [hq]
    · rw [if_neg (by exact hq)]
      rw [ih]
      constructor
      · intro hall x hx
        rcases List.mem_cons.1 hx with rfl | hx
        · exact hq
        · exact hall x hx
      · intro hall x hx
        exact hall x (List.mem_cons_of_mem h hx)

theorem findTitle_some (hs : List String) (t : String)
    (h : findTitle hs = some t) :
    ∃ pre x post, hs = pre ++ x :: post ∧ t = pyStrip x ∧ qualifiesTitle x ∧
      ∀ y ∈ pre, ¬ qualifiesTitle y := by
  induction hs with
  | nil => simp [findTitle] at h
  | cons a rest ih =>
    rw [findTitle] at h
    by_cases hq : qualifiesTitle a
    · rw [if_pos (by exact hq)] at h
      exact ⟨[], a, rest, by simp, by simpa using h.symm, hq, by simp⟩
    · rw [if_neg (by exact hq)] at h
      obtain ⟨pre, x, post, hsplit, ht, hx, hpre⟩ := ih h
      refine ⟨a :: pre, x, post, by rw [hsplit, List.cons_append], ht, hx, ?_⟩
      intro y hy
      rcases List.mem_cons.1 hy with rfl | hy
      · exact hq
      · exact hpre y hy

theorem parse_none_iff (c : Container) (url : String) (i : Nat) :
    parse_article_container c url i = none ↔
      ∀ h ∈ c.headings, ¬ qualifiesTitle h := by
  rw [parse_article_container_eq, ← findTitle_none_iff]
  rcases findTitle c.headings with - | t <;> simp

theorem parse_some_idx (c : Container) (url : String) (i : Nat)
    (r : ArticleRecord) (h : parse_article_container c url i = some r) :
    r.extraction_index = i ∧ r.source_page = url ∧
      r.record_id = generate_article_id url r.title i := by
  rw [parse_article_container_eq] at h
  rcases ht : findTitle c.headings with - | t
  · rw [ht] at h; simp at h
  · rw [ht] at h
    simp only [Option.map_some', Option.some.injEq] at h
    rw [← h]
    exact ⟨rfl, rfl, rfl⟩

theorem mem_enumFrom_filterMap (url : String) :
    ∀ (l : List Container) (n : Nat) (r : ArticleRecord),
      (r ∈ (List.enumFrom n l).filterMap
          (fun p => parse_article_container p.2 url p.1) ↔
        ∃ j, ∃ h : j < l.length,
          parse_article_container (l.get ⟨j, h⟩) url (n + j) = some r) := by
  intro l
  induction l with
  | nil => intro n r; simp
  | cons c tl ih =>
    intro n r
    rw [List.enumFrom, List.filterMap_cons]
    constructor
    · intro hmem
      rcases hp : parse_article_container c url n with - | a
      · rw [hp] at hmem
        obtain ⟨j, hj, hparse⟩ := (ih (n + 1) r).1 hmem
        exact ⟨j + 1, by simp only [List.length_cons]; omega, by
          simpa [Nat.add_assoc, Nat.add_comm 1 j] using hparse⟩
      · rw [hp] at hmem
        rcases List.mem_cons.1 hmem with rfl | hmem
        · exact ⟨0, by simp, by simpa using hp⟩
        · obtain ⟨j, hj, hparse⟩ := (ih (n + 1) r).1 hmem
          exact ⟨j + 1, by simp only [List.length_cons]; omega, by
            simpa [Nat.add_assoc, Nat.add_comm 1 j] using hparse⟩
    · rintro ⟨j, hj, hparse⟩
      rcases j with - | j
      · simp only [List.get, Nat.add_zero] at hparse
        rcases hp : parse_article_container c url n with - | a
        · rw [hp] at hparse; simp at hparse
        · rw [hp] at hparse
          simp only [Option.some.injEq] at hparse
          subst hparse
          exact List.mem_cons_self a _
      · have hj2 : j < tl.length := by
          simp only [List.length_cons] at hj; omega
        have hmem := (ih (n + 1) r).2 ⟨j, hj2, by
          simpa [Nat.add_assoc, Nat.add_comm 1 j] using hparse⟩
        rcases hp : parse_article_container c url n with - | a
        · exact hmem
        · exact List.mem_cons_of_mem a hmem

theorem mem_extract_articles_iff (cs : List Container) (url : String)
    (r : ArticleRecord) :
    r ∈ extract_articles cs url ↔
      ∃ j, ∃ h : j < (uniqueContainers cs).length,
        parse_article_container ((uniqueContainers cs).get ⟨j, h⟩) url j = some r := by
  rw [extract_articles, List.enum_eq_enumFrom]
  have := mem_enumFrom_filterMap url (uniqueContainers cs) 0 r
  simpa using this

theorem extract_map_idx_sublist (url : String) :
    ∀ (l : List Container) (n : Nat),
      (((List.enumFrom n l).filterMap
          (fun p => parse_article_container p.2 url p.1)).map
        ArticleRecord.extraction_index).Sublist
        ((List.enumFrom n l).map Prod.fst) := by
  intro l
  induction l with
  | nil => intro n; simp
  | cons c tl ih =>
    intro n
    rw [List.enumFrom, List.filterMap_cons]
    rcases hp : parse_article_container c url n with - | a
    · exact List.Sublist.cons n (ih (n + 1))
    · rw [List.map_cons, List.map_cons]
      have ha : a.extraction_index = n := (parse_some_idx c url n a hp).1
      rw [ha]
      exact List.Sublist.cons₂ n (ih (n + 1))

theorem extract_idx_pairwise (cs : List Container) (url : String) :
    ((extract_articles cs url).map ArticleRecord.extraction_index).Pairwise (· < ·) := by
  have hsub := extract_map_idx_sublist url (uniqueContainers cs) 0
  rw [List.enumFrom_map_fst] at hsub
  rw [extract_articles, List.enum_eq_enumFrom]
  exact List.Pairwise.sublist hsub (List.pairwise_lt_range' 0 _ 1)

theorem increasing_get_ge (xs : List Nat) (hp : xs.Pairwise (· < ·)) :
    ∀ j, ∀ h : j < xs.length, j ≤ xs.get ⟨j, h⟩ := by
  intro j
  induction j with
  | zero => intro h; exact Nat.zero_le _
  | succ j ih =>
    intro h
    have hj : j < xs.length := by omega
    have hlt : xs.get ⟨j, hj⟩ < xs.get ⟨j + 1, h⟩ :=
      List.pairwise_iff_get.1 hp ⟨j, hj⟩ ⟨j + 1, h⟩ (by simp)
    have := ih hj
    omega

/-! ## C10 — `extraction_index` structure -/

/-- C10: in the output of `extract_articles`, each record's
`extraction_index` is its container's position in the deduplicated
container list (the record is exactly the parse of that container at that
index); the indices are strictly increasing across the output; and each
record's index is at least — possibly greater than, when containers in
between were discarded or failed to parse — its position in the output
list. -/
theorem extraction_index_structure (cs : List Container) (url : String) :
    (∀ r, r ∈ extract_articles cs url →
      ∃ h : r.extraction_index < (uniqueContainers cs).length,
        parse_article_container
          ((uniqueContainers cs).get ⟨r.extraction_index, h⟩) url
          r.extraction_index = some r) ∧
    ((extract_articles cs url).map ArticleRecord.extraction_index).Pairwise (· < ·) ∧
    (∀ j, ∀ h : j < (extract_articles cs url).length,
      j ≤ ((extract_articles cs url).get ⟨j, h⟩).extraction_index) := by
  refine ⟨?_, extract_idx_pairwise cs url, ?_⟩
  · intro r hr
    obtain ⟨j, hj, hparse⟩ := (mem_extract_articles_iff cs url r).1 hr
    have hidx : r.extraction_index = j := (parse_some_idx _ url j r hparse).1
    subst hidx
    exact ⟨hj, hparse⟩
  · intro j h
    have hp := extract_idx_pairwise cs url
    have hlen : j < ((extract_articles cs url).map
        ArticleRecord.extraction_index).length := by
      simpa using h
    have := increasing_get_ge _ hp j hlen
    simpa using this

/-- A container with no heading at all (every parse of it fails). -/
def containerNoTitle : Container :=
  ⟨"markupB", [], [], none, none, [], [], [], [], ""⟩

/-- A second titled container, distinct from `containerTwoRootLinks`. -/
def containerTitledC : Container :=
  ⟨"markupC", ["Another sufficiently long title"], [], none, none, [], [],
   [], [], ""⟩

/-- C10 witness: with a discarded container in the middle, the second
record's `extraction_index` is 2 > 1, its position in the output. -/
theorem extraction_index_structure_witness :
    (extract_articles [containerTwoRootLinks, containerNoTitle, containerTitledC]
        "https://x.test/page").map ArticleRecord.extraction_index = [0, 2] ∧
    1 ≤ ((extract_articles
        [containerTwoRootLinks, containerNoTitle, containerTitledC]
        "https://x.test/page").get ⟨1, by decide⟩).extraction_index := by
  refine ⟨by decide, ?_⟩
  exact (extraction_index_structure
    [containerTwoRootLinks, containerNoTitle, containerTitledC]
    "https://x.test/page").2.2 1 (by decide)

/-! ## C5 — title selection and mandatory-title discard -/

/-- C5: the title is the first heading (document order) whose stripped text
is nonempty and longer than 10 characters; a container none of whose
headings qualify parses to `none` and contributes no record (no output
record carries its extraction index). -/
theorem title_selection (c : Container) (url : String) (i : Nat) :
    (∀ r, parse_article_container c url i = some r →
      findTitle c.headings = some r.title ∧
      ∃ pre h post, c.headings = pre ++ h :: post ∧ r.title = pyStrip h ∧
        qualifiesTitle h ∧ ∀ y ∈ pre, ¬ qualifiesTitle y) ∧
    ((∀ h ∈ c.headings, ¬ qualifiesTitle h) →
      parse_article_container c url i = none) ∧
    (∀ cs j, ∀ hj : j < (uniqueContainers cs).length,
      (uniqueContainers cs).get ⟨j, hj⟩ = c →
      (∀ h ∈ c.headings, ¬ qualifiesTitle h) →
      ∀ r ∈ extract_articles cs url, r.extraction_index ≠ j) := by
  refine ⟨?_, ?_, ?_⟩
  · intro r hr
    rw [parse_article_container_eq] at hr
    rcases ht : findTitle c.headings with - | t
    · rw [ht] at hr; simp at hr
    · rw [ht] at hr
      simp only [Option.map_some', Option.some.injEq] at hr
      have htitle : r.title = t := by rw [← hr]
      subst htitle
      exact ⟨rfl, findTitle_some c.headings r.title ht⟩
  · exact (parse_none_iff c url i).2
  · intro cs j hj hc hnone r hr hidx
    obtain ⟨j2, hj2, hparse⟩ := (mem_extract_articles_iff cs url r).1 hr
    have hixd : r.extraction_index = j2 := (parse_some_idx _ url j2 r hparse).1
    obtain rfl : j2 = j := by rw [← hixd, hidx]
    have hc2 : (uniqueContainers cs).get ⟨j2, hj2⟩ = c := hc
    rw [hc2, (parse_none_iff c url j2).2 hnone] at hparse
    simp at hparse

/-- A container whose single heading has exactly 10 characters. -/
def containerOnlyTen : Container :=
  ⟨"mT", ["exactly10!"], [], none, none, [], [], [], [], ""⟩

/-- A container with a 10-character heading followed by an 11-character
heading. -/
def containerTenEleven : Container :=
  ⟨"mE", ["exactly10!", "elevenchars"], [], none, none, [], [], [], [], ""⟩

/-- The record `containerTenEleven` parses to: the 10-character heading is
rejected, the 11-character one becomes the title. -/
def recordTenEleven : ArticleRecord :=
  ⟨"477e00d350f949df", "elevenchars", none, none, "", none, none, none,
   none, "https://x.test", 0⟩

/-- The record `containerTitledC` parses to at extraction index 2. -/
def recordTitledC : ArticleRecord :=
  ⟨"9ef5be8370e7702b", "Another sufficiently long title", none, none, "",
   none, none, none, none, "https://x.test/page", 2⟩

/-- C5 witness: a 10-character heading is rejected (the 11-character one is
chosen instead); a container whose only heading has 10 characters parses to
`none`; and a title-less container in a concrete extraction contributes no
record at its index. -/
theorem title_selection_witness :
    findTitle ["exactly10!", "elevenchars"] = some recordTenEleven.title ∧
    parse_article_container containerOnlyTen "https://x.test" 0 = none ∧
    recordTitledC.extraction_index ≠ 1 := by
  refine ⟨?_, ?_, ?_⟩
  · exact ((title_selection containerTenEleven "https://x.test" 0).1
      recordTenEleven (by decide)).1
  · exact (title_selection containerOnlyTen "https://x.test" 0).2.1 (by decide)
  · exact (title_selection containerNoTitle "https://x.test/page" 0).2.2
      [containerTwoRootLinks, containerNoTitle, containerTitledC] 1 (by decide)
      (by decide) (by decide) recordTitledC (by decide)

/-! ## C7 — `record_id` determinism -/

theorem hexFold_length (l : List Nat) :
    (l.foldr (fun b acc => byteHexChars b ++ acc) []).length = 2 * l.length := by
  induction l with
  | nil => simp
  | cons b l ih =>
    rw [List.foldr_cons, List.length_append, ih,
      show (byteHexChars b).length = 2 from rfl, List.length_cons]
    omega

theorem md5Bytes_length (msg : List Nat) : (md5Bytes msg).length = 16 := by
  unfold md5Bytes
  obtain ⟨a, b, c, d⟩ := (chunks64 (mdPad msg).length (mdPad msg)).foldl
    mdProcessBlock (0x67452301, 0xefcdab89, 0x98badcfe, 0x10325476)
  simp [wordLEBytes]

theorem md5HexChars_length (msg : List Nat) : (md5HexChars msg).length = 32 := by
  rw [md5HexChars, hexFold_length, md5Bytes_length]

/-- C7: `record_id` is a pure deterministic function of
`(pageUrl, title, extraction index)` — the MD5 of `pageUrl|title|index`
truncated to 16 hex characters — so it has fixed length 16, any parsed
record's id is exactly that function of its page, title and index, and any
two parses (of possibly different containers) at the same page, title and
index produce identical ids. -/
theorem record_id_deterministic (p t : String) (i : Nat) (c₁ c₂ : Container)
    (url : String) (j : Nat) (r₁ r₂ : ArticleRecord)
    (h₁ : parse_article_container c₁ url j = some r₁)
    (h₂ : parse_article_container c₂ url j = some r₂)
    (ht : r₁.title = r₂.title) :
    (generate_article_id p t i).length = 16 ∧
    r₁.record_id = generate_article_id url r₁.title j ∧
    r₁.record_id = r₂.record_id := by
  refine ⟨?_, (parse_some_idx c₁ url j r₁ h₁).2.2, ?_⟩
  · show (String.mk _).length = 16
    show (List.take 16 _).length = 16
    rw [List.length_take, md5HexChars_length]
    omega
  · rw [(parse_some_idx c₁ url j r₁ h₁).2.2, (parse_some_idx c₂ url j r₂ h₂).2.2, ht]

/-- A container with an 11+-character heading and nothing else. -/
def containerSameTitleA : Container :=
  ⟨"mX", ["Hello world, eleven!"], [], none, none, [], [], [], [], ""⟩

/-- A container with the same heading up to stripping, but different markup,
an extra paragraph and an extra text node. -/
def containerSameTitleB : Container :=
  ⟨"mY", ["  Hello world, eleven!  "], [], none, none, [],
   ["This paragraph serves as the description text."], [],
   [("p", "This paragraph serves as the description text.")], ""⟩

/-- The record `containerSameTitleA` parses to. -/
def recordSameTitleA : ArticleRecord :=
  ⟨"da966c3ca0e84993", "Hello world, eleven!", none, none, "", none, none,
   none, none, "https://x.test", 0⟩

/-- The record `containerSameTitleB` parses to: same id despite different
description, body and markup. -/
def recordSameTitleB : ArticleRecord :=
  ⟨"da966c3ca0e84993", "Hello world, eleven!", none,
   some "This paragraph serves as the description text.",
   "This paragraph serves as the description text.", none, none, none,
   none, "https://x.test", 0⟩

/-- C7 witness: two containers differing in everything but the title parse
to records with the same 16-character id at the same page and index. -/
theorem record_id_deterministic_witness :
    (generate_article_id "https://x.test" "Hello world, eleven!" 0).length = 16 ∧
    recordSameTitleA.record_id = recordSameTitleB.record_id := by
  have h := record_id_deterministic "https://x.test" "Hello world, eleven!" 0
    containerSameTitleA containerSameTitleB "https://x.test" 0
    recordSameTitleA recordSameTitleB (by decide) (by decide) rfl
  exact ⟨h.1, h.2.2⟩

/-! ## C6 — deduplication by 200-character fingerprint -/

theorem dedup_go_mem :
    ∀ (l : List Container) (seen : List String) (c : Container),
      c ∈ dedupContainers l seen ↔
        fingerprint c ∉ seen ∧
        ∃ pre post, l = pre ++ c :: post ∧
          ∀ x ∈ pre, fingerprint x ≠ fingerprint c := by
  intro l
  induction l with
  | nil =>
    intro seen c
    simp only [dedupContainers, List.not_mem_nil, false_iff]
    rintro ⟨-, pre, post, h, -⟩
    simp at h
  | cons h rest ih =>
    intro seen c
    rw [dedupContainers]
    by_cases hfp : fingerprint h ∈ seen
    · rw [if_pos hfp, ih]
      constructor
      · rintro ⟨hnot, pre, post, hsplit, hpre⟩
        refine ⟨hnot, h :: pre, post, by rw [hsplit, List.cons_append], ?_⟩
        intro x hx
        rcases List.mem_cons.1 hx with rfl | hx
        · intro heq
          exact hnot (heq ▸ hfp)
        · exact hpre x hx
      · rintro ⟨hnot, pre, post, hsplit, hpre⟩
        rcases pre with - | ⟨h2, pre⟩
        · simp only [List.nil_append, List.cons.injEq] at hsplit
          exact absurd (hsplit.1 ▸ hfp) (by simpa [hsplit.1] using hnot)
        · simp only [List.cons_append, List.cons.injEq] at hsplit
          exact ⟨hnot, pre, post, hsplit.2,
            fun x hx => hpre x (List.mem_cons_of_mem h2 hx)⟩
    · rw [if_neg hfp]
      rw [List.mem_cons, ih]
      constructor
      · rintro (rfl | ⟨hni, pre, post, hsplit, hpre⟩)
        · exact ⟨hfp, [], rest, rfl, by simp⟩
        · rw [List.mem_cons] at hni
          push_neg at hni
          refine ⟨hni.2, h :: pre, post, by rw [hsplit, List.cons_append], ?_⟩
          intro x hx
          rcases List.mem_cons.1 hx with rfl | hx
          · exact fun heq => hni.1 heq.symm
          · exact hpre x hx
      · rintro ⟨hnot, pre, post, hsplit, hpre⟩
        rcases pre with - | ⟨h2, pre⟩
        · simp only [List.nil_append, List.cons.injEq] at hsplit
          exact Or.inl hsplit.1.symm
        · simp only [List.cons_append, List.cons.injEq] at hsplit
          refine Or.inr ⟨?_, pre, post, hsplit.2,
            fun x hx => hpre x (List.mem_cons_of_mem h2 hx)⟩
          rw [List.mem_cons]
          push_neg
          refine ⟨?_, hnot⟩
          have h2ne := hpre h2 (List.mem_cons_self h2 pre)
          rw [hsplit.1]
          exact fun heq => h2ne heq.symm

theorem dedup_go_sublist :
    ∀ (l : List Container) (seen : List String),
      (dedupContainers l seen).Sublist l := by
  intro l
  induction l with
  | nil => intro seen; simp [dedupContainers]
  | cons h rest ih =>
    intro seen
    rw [dedupContainers]
    by_cases hfp : fingerprint h ∈ seen
    · rw [if_pos hfp]
      exact List.Sublist.cons h (ih seen)
    · rw [if_neg hfp]
      exact List.Sublist.cons₂ h (ih _)

theorem dedup_go_pairwise :
    ∀ (l : List Container) (seen : List String),
      (dedupContainers l seen).Pairwise
        (fun x y => fingerprint x ≠ fingerprint y) := by
  intro l
  induction l with
  | nil => intro seen; simp [dedupContainers]
  | cons h rest ih =>
    intro seen
    rw [dedupContainers]
    by_cases hfp : fingerprint h ∈ seen
    · rw [if_pos hfp]; exact ih seen
    · rw [if_neg hfp]
      refine List.Pairwise.cons ?_ (ih _)
      intro y hy
      have := ((dedup_go_mem rest (fingerprint h :: seen) y).1 hy).1
      rw [List.mem_cons] at this
      push_neg at this
      exact fun heq => this.1 heq.symm

/-- C6: deduplication keeps a subsequence of the candidates (discovery order
preserved); no two survivors share a fingerprint (the first 200 characters
of serialized markup); and a candidate survives exactly when it is the
first candidate bearing its fingerprint — so of two candidates agreeing on
the first 200 markup characters only the earlier survives, while candidates
differing within the first 200 characters all survive. -/
theorem dedup_fingerprint_first_occurrence (l : List Container) :
    (uniqueContainers l).Sublist l ∧
    (uniqueContainers l).Pairwise (fun x y => fingerprint x ≠ fingerprint y) ∧
    ∀ c, c ∈ uniqueContainers l ↔
      ∃ pre post, l = pre ++ c :: post ∧
        ∀ x ∈ pre, fingerprint x ≠ fingerprint c := by
  refine ⟨dedup_go_sublist l [], dedup_go_pairwise l [], fun c => ?_⟩
  rw [uniqueContainers, dedup_go_mem]
  simp

/-- 200 `a`s followed by an `X`: agrees with `longMarkupY` on the first 200
characters and differs after them. -/
def longMarkupX : String := String.mk (List.replicate 200 'a' ++ ['X'])

/-- 200 `a`s followed by a `Y`. -/
def longMarkupY : String := String.mk (List.replicate 200 'a' ++ ['Y'])

/-- First of two containers whose markup agrees on the first 200 characters. -/
def containerDupA : Container :=
  ⟨longMarkupX, ["First duplicate card title"], [], none, none, [], [], [], [], ""⟩

/-- Second of two containers whose markup agrees on the first 200
characters but differs at character 201. -/
def containerDupB : Container :=
  ⟨longMarkupY, ["Second duplicate card title"], [], none, none, [], [], [], [], ""⟩

/-- C6 witness: with two 200-character-equal containers and one distinct
one, the first duplicate survives (via the characterization) and the
deduplicated list is exactly first-occurrences in discovery order. -/
theorem dedup_fingerprint_first_occurrence_witness :
    containerDupA ∈
      uniqueContainers [containerDupA, containerDupB, containerTitledC] ∧
    uniqueContainers [containerDupA, containerDupB, containerTitledC] =
      [containerDupA, containerTitledC] := by
  constructor
  · exact ((dedup_fingerprint_first_occurrence
      [containerDupA, containerDupB, containerTitledC]).2.2 containerDupA).2
      ⟨[], [containerDupB, containerTitledC], rfl, by simp⟩
  · decide

/-! ## C3 — date-range driver -/

theorem scrape_url_success (cfg : ScrapingConfig) (env : FetchEnv)
    (st : ScraperState) (url : String) (d : PageData)
    (h : (scrape_url cfg env st url).data = some d) :
    (retryLoop (env.attemptSucceeds url) cfg.max_retries 0).1 ≠ none := by
  rw [scrape_url] at h
  by_cases hgate : should_scrape_url cfg env.robotsAllowed st url = true
  · simp only [hgate, not_true, if_false] at h
    rcases hr : (retryLoop (env.attemptSucceeds url) cfg.max_retries 0).1 with - | k
    · rw [hr] at h; simp at h
    · simp
  · simp only [Bool.not_eq_true] at hgate
    simp [hgate] at h

theorem generate_date_range_pairwise (start endDay : Nat) (w : Bool) :
    (generate_date_range start endDay w).Pairwise (· < ·) :=
  List.Pairwise.sublist (List.filter_sublist _)
    (List.pairwise_lt_range' start (endDay + 1 - start) 1)

theorem sdr_go_facts (cfg : ScrapingConfig) (env : FetchEnv)
    (urlFor : Nat → String) :
    ∀ (ds : List Nat) (st : ScraperState),
      ((scrapeDateRangeGo cfg env urlFor ds st).1.map Prod.fst).Sublist
        (ds.take (scrapeDateRangeGo cfg env urlFor ds st).2.2) ∧
      (∀ p ∈ (scrapeDateRangeGo cfg env urlFor ds st).1,
        (retryLoop (env.attemptSucceeds (urlFor p.1)) cfg.max_retries 0).1 ≠ none) ∧
      (scrapeDateRangeGo cfg env urlFor ds st).2.2 ≤ ds.length := by
  intro ds
  induction ds with
  | nil => intro st; simp [scrapeDateRangeGo]
  | cons d rest ih =>
    intro st
    rw [scrapeDateRangeGo]
    by_cases hbrk : cfg.max_consecutive_failures ≤ st.consecutive_failures
    · rw [if_pos hbrk]
      simp
    · rw [if_neg hbrk]
      obtain ⟨ih1, ih2, ih3⟩ := ih (scrape_url cfg env st (urlFor d)).state
      rcases hd : (scrape_url cfg env st (urlFor d)).data with - | data
      · simp only [hd]
        refine ⟨?_, ih2, by simpa using ih3⟩
        rw [List.take_succ_cons]
        exact List.Sublist.cons d ih1
      · simp only [hd]
        refine ⟨?_, ?_, by simpa using ih3⟩
        · rw [List.map_cons, List.take_succ_cons]
          exact List.Sublist.cons₂ d ih1
        · intro p hp
          rcases List.mem_cons.1 hp with rfl | hp
          · exact scrape_url_success cfg env st (urlFor d) data hd
          · exact ih2 p hp

/-- C3 (amended): the date-range driver visits the generated dates in
ascending order; the returned list is a subsequence of the attempted prefix
of the date sequence, in ascending date order, and contains only successes
(each recorded date's retry loop found a successful attempt) — per-date
failures are counted toward the circuit breaker and logged but are **not**
recorded in the returned results; at most all generated dates are
attempted. -/
theorem date_range_drive (cfg : ScrapingConfig) (env : FetchEnv)
    (urlFor : Nat → String) (st : ScraperState) (start endDay : Nat) :
    ((scrape_date_range cfg env urlFor st start endDay).1.map Prod.fst).Sublist
      ((generate_date_range start endDay cfg.skip_weekends).take
        (scrape_date_range cfg env urlFor st start endDay).2.2) ∧
    ((scrape_date_range cfg env urlFor st start endDay).1.map
      Prod.fst).Pairwise (· < ·) ∧
    (∀ p ∈ (scrape_date_range cfg env urlFor st start endDay).1,
      (retryLoop (env.attemptSucceeds (urlFor p.1)) cfg.max_retries 0).1 ≠ none) ∧
    (scrape_date_range cfg env urlFor st start endDay).2.2 ≤
      (generate_date_range start endDay cfg.skip_weekends).length := by
  obtain ⟨h1, h2, h3⟩ := sdr_go_facts cfg env urlFor
    (generate_date_range start endDay cfg.skip_weekends) st
  refine ⟨h1, ?_, h2, h3⟩
  exact List.Pairwise.sublist
    (h1.trans (List.take_sublist _ _))
    (generate_date_range_pairwise start endDay cfg.skip_weekends)

/-- C3 counterexample: the default configuration (threshold 5), six dates,
every attempt failing: the run attempts exactly 5 dates (aborting before
the 6th), the failure counter ends at 5, and the returned results are
empty — no failure entries for the five attempted dates, where the claim
requires failure entries to be recorded in the returned results. -/
theorem date_range_failures_not_recorded_cex :
    scrape_date_range {} envAllFail (fun d => "https://tldr.tech/tech/" ++ toString d)
        st0 0 5 = ([], ⟨[], 5⟩, 5) ∧
    (scrape_date_range {} envAllFail (fun d => "https://tldr.tech/tech/" ++ toString d)
        st0 0 5).1.length = 0 ∧ (0 : Nat) ≠ 5 := by
  refine ⟨by decide, by decide, by decide⟩

/-- C3 witness: the amended theorem at a concrete three-date all-success
run — ascending recorded dates, and only successes recorded. -/
theorem date_range_drive_witness :
    ((scrape_date_range {} envAllOk (fun _ => "https://tldr.tech/tech/x")
        st0 0 2).1.map Prod.fst).Pairwise (· < ·) ∧
    (retryLoop (envAllOk.attemptSucceeds "https://tldr.tech/tech/x")
        ({} : ScrapingConfig).max_retries 0).1 ≠ none ∧
    (scrape_date_range {} envAllOk (fun _ => "https://tldr.tech/tech/x")
        st0 0 2).2.2 ≤
      (generate_date_range 0 2 ({} : ScrapingConfig).skip_weekends).length := by
  have h := date_range_drive {} envAllOk (fun _ => "https://tldr.tech/tech/x")
    st0 0 2
  refine ⟨h.2.1, ?_, h.2.2.2⟩
  exact h.2.2.1 (0, ⟨"https://tldr.tech/tech/x", "", "", "", [], 0, 200⟩)
    (by decide)

end TLDRScraper
